import Mathlib

/-!
Verification of the TodoApp client (TypeScript/React Native) against its
natural-language specification.  The definitions below are a shallow
embedding of the relevant source functions:

* `NotificationsService.scheduleTaskNotification` (src/services/notifications.ts)
* `validNotificationOptions`, `isNotificationValid`, the auto-adjust effect and
  `handleSubmit` of `TaskDialog` (src/components/TaskDialog.tsx, in both the
  final variant and the earlier part_003 variant)
* `ensureDefaultCategory`, `addCategory`, `updateCategory`, `deleteCategory`
  and the other mutations of `DataContext` (src/contexts/DataContext.tsx)
* the overview stats of `ReportsScreen` (src/screens/ReportsScreen.tsx)

Timestamps are JavaScript epoch milliseconds, modelled as `Int`.
-/

namespace TodoApp

/-- Task status, from src/types/index.ts:
`type TaskStatus = "upcoming" | "overdue" | "completed" | "canceled"`. -/
inductive TaskStatus where
  | upcoming
  | overdue
  | completed
  | canceled
deriving DecidableEq, Repr

/-- A task row, from the `Task` interface in src/types/index.ts.
Date strings are represented by their epoch-millisecond value. -/
structure Task where
  id : String
  title : String
  description : Option String
  status : TaskStatus
  category_id : String
  user_id : String
  due_date : Option Int
  created_at : Int
  updated_at : Int
  order_index : Int
  notification_minutes_before : Option Int
  enable_notification : Option Bool
deriving DecidableEq, Repr

/-- A category row, from the `Category` interface in src/types/index.ts. -/
structure Category where
  id : String
  name : String
  color : String
  user_id : String
  created_at : Int
  is_default : Bool
deriving DecidableEq, Repr

/-! ## Notification scheduling (src/services/notifications.ts) -/

/-- Embedding of `NotificationsService.scheduleTaskNotification`:
`triggerDate = new Date(dueDate.getTime() - minutesBefore * 60000)`;
if `triggerDate <= new Date()` it returns `null` without scheduling,
otherwise it schedules a notification at `triggerDate`.
We return the scheduled trigger time (`none` = nothing scheduled). -/
def scheduleTaskNotification (now dueDate minutesBefore : Int) : Option Int :=
  let triggerDate := dueDate - minutesBefore * 60000
  if triggerDate ≤ now then none
  else some triggerDate

/-! ## Lead-time options (src/components/TaskDialog.tsx, final variant) -/

/-- One entry of the notification lead-time option list. -/
structure NotifOption where
  label : String
  value : Int
deriving DecidableEq, Repr

/-- The six standard options declared in `validNotificationOptions`. -/
def allOptions : List NotifOption :=
  [⟨"5 min", 5⟩, ⟨"15 min", 15⟩, ⟨"30 min", 30⟩,
   ⟨"1 oră", 60⟩, ⟨"2 ore", 120⟩, ⟨"1 zi", 1440⟩]

/-- Embedding of `date-fns` `differenceInMinutes(dateLeft, dateRight)` with the default
`trunc` rounding: the millisecond difference divided by 60000, truncated
toward zero (`Int.div` is T-division). -/
def differenceInMinutes (dateLeft dateRight : Int) : Int :=
  Int.tdiv (dateLeft - dateRight) 60000

/-- Embedding of `validNotificationOptions` of the final TaskDialog:
with no due date (`minutesUntilDue = null`) or `!minutesUntilDue ||
minutesUntilDue <= 0` (JS falsiness of `0` included) return all options;
otherwise keep the options strictly below `minutesUntilDue`, falling back
to a single "1 min" option when none remains. -/
def validNotificationOptions (minutesUntilDue : Option Int) : List NotifOption :=
  match minutesUntilDue with
  | none => allOptions
  | some m =>
    if m ≤ 0 then allOptions
    else
      let validOptions := allOptions.filter (fun opt => opt.value < m)
      if validOptions.isEmpty then [⟨"1 min", 1⟩] else validOptions

/-- Embedding of `isNotificationValid` of the final TaskDialog:
`if (!dueDate || !minutesUntilDue) return false;` (so `null` and `0` give
`false`), else `notificationMinutesBefore < minutesUntilDue`. -/
def isNotificationValid (minutesUntilDue : Option Int)
    (notificationMinutesBefore : Int) : Bool :=
  match minutesUntilDue with
  | none => false
  | some m => if m = 0 then false else decide (notificationMinutesBefore < m)

/-- The auto-adjust `useEffect` of the final TaskDialog: with a due date in
the future, a selected lead time `>= minutesUntilDue` is replaced by the
value of the last entry of `validNotificationOptions`. -/
def adjustNotificationMinutes (minutesUntilDue : Option Int)
    (notificationMinutesBefore : Int) : Int :=
  match minutesUntilDue with
  | none => notificationMinutesBefore
  | some m =>
    if 0 < m then
      if m ≤ notificationMinutesBefore then
        match (validNotificationOptions (some m)).getLast? with
        | some maxValid => maxValid.value
        | none => notificationMinutesBefore
      else notificationMinutesBefore
    else notificationMinutesBefore

/-! ## Task-dialog submission (src/components/TaskDialog.tsx and part_003) -/

/-- JavaScript `String.prototype.trim()`: strip leading and trailing
whitespace (modelled on the character list of the string, structurally, so
that it evaluates). -/
def trim (s : String) : String :=
  ⟨((s.data.dropWhile Char.isWhitespace).reverse.dropWhile Char.isWhitespace).reverse⟩

/-- An OS-scheduled local notification, as returned by
`Notifications.getAllScheduledNotificationsAsync`: its identifier, the
`data.taskId` of its content, and its trigger time. -/
structure ScheduledNotification where
  identifier : String
  taskId : String
  triggerTime : Int
deriving DecidableEq, Repr

/-- The `taskData` record assembled by `handleSubmit` of the final
TaskDialog (also covers part_003, whose `undefined` lead time is `none`). -/
structure TaskData where
  title : String
  description : String
  category_id : String
  status : TaskStatus
  due_date : Option Int
  enable_notification : Bool
  notification_minutes_before : Option Int
deriving DecidableEq, Repr

/-- Outcome of a dialog submission: the empty-title/no-category early
return, the invalid-notification alert return (final variant only), or a
saved task (dialog dismissed) together with the resulting list of
OS-scheduled notifications. -/
inductive SubmitResult where
  | rejectedEmpty
  | rejectedInvalid
  | saved (taskData : TaskData) (scheduled : List ScheduledNotification)
deriving DecidableEq, Repr

/-- The notification block of the final TaskDialog `handleSubmit`
(lines 576-600): schedule one reminder when the notification is enabled, a
due date exists, the device is registered, the saved task has an id, the
selected lead time is valid and the due date is in the future.  No
previously scheduled notification is canceled. -/
def scheduleOnSubmit (now : Int) (scheduled : List ScheduledNotification)
    (savedTaskId : String) (enableNotification isRegistered : Bool)
    (dueDate : Option Int) (notificationMinutesBefore : Int)
    (freshId : String) : List ScheduledNotification :=
  match dueDate with
  | some d =>
    if enableNotification = true ∧ isRegistered = true ∧ savedTaskId ≠ ""
        ∧ isNotificationValid (some (differenceInMinutes d now))
            notificationMinutesBefore = true
        ∧ 0 < differenceInMinutes d now then
      match scheduleTaskNotification now d notificationMinutesBefore with
      | some trig => scheduled ++ [⟨freshId, savedTaskId, trig⟩]
      | none => scheduled
    else scheduled
  | none => scheduled

/-- Embedding of `handleSubmit` of the final TaskDialog: early return on empty trimmed
title or missing category; alert return when the notification is enabled,
the due date is in the future and the selected lead time is invalid;
otherwise save `taskData` (notification fields forced off for an overdue
due date) and run the schedule block. -/
def handleSubmit (now : Int) (scheduled : List ScheduledNotification)
    (title description categoryId savedTaskId : String)
    (status : TaskStatus) (dueDate : Option Int)
    (enableNotification isRegistered : Bool)
    (notificationMinutesBefore : Int) (freshId : String) : SubmitResult :=
  if trim title = "" ∨ categoryId = "" then .rejectedEmpty
  else
    let minutesUntilDue : Option Int := dueDate.map (fun d => differenceInMinutes d now)
    let isOverdue : Bool :=
      match minutesUntilDue with
      | some m => decide (m ≤ 0)
      | none => false
    if enableNotification = true ∧ dueDate ≠ none ∧ isOverdue = false ∧
        isNotificationValid minutesUntilDue notificationMinutesBefore = false then
      .rejectedInvalid
    else
      let taskData : TaskData :=
        { title := trim title
          description := trim description
          category_id := categoryId
          status := status
          due_date := dueDate
          enable_notification := enableNotification && !isOverdue
          notification_minutes_before :=
            if enableNotification = true ∧ isOverdue = false
              then some notificationMinutesBefore else none }
      .saved taskData
        (scheduleOnSubmit now scheduled savedTaskId enableNotification
          isRegistered dueDate notificationMinutesBefore freshId)

/-- The notification block of the part_003 TaskDialog `handleSubmit`
(lines 119-143): when the saved task has an id and the device is
registered, first cancel every scheduled notification whose `data.taskId`
equals the saved task's id, then, if the notification is enabled and a due
date exists, schedule one new reminder. -/
def reconcileNotificationsP3 (now : Int) (scheduled : List ScheduledNotification)
    (savedTaskId : String) (enableNotification isRegistered : Bool)
    (dueDate : Option Int) (notificationMinutesBefore : Int)
    (freshId : String) : List ScheduledNotification :=
  if savedTaskId ≠ "" ∧ isRegistered = true then
    if enableNotification then
      match dueDate with
      | some d =>
        match scheduleTaskNotification now d notificationMinutesBefore with
        | some trig =>
          scheduled.filter (fun n => n.taskId != savedTaskId)
            ++ [⟨freshId, savedTaskId, trig⟩]
        | none => scheduled.filter (fun n => n.taskId != savedTaskId)
      | none => scheduled.filter (fun n => n.taskId != savedTaskId)
    else scheduled.filter (fun n => n.taskId != savedTaskId)
  else scheduled

/-- Embedding of `handleSubmit` of the part_003 TaskDialog: early return on empty
trimmed title or missing category, then save `taskData` and reconcile the
scheduled notifications. -/
def handleSubmitP3 (now : Int) (scheduled : List ScheduledNotification)
    (title description categoryId savedTaskId : String)
    (status : TaskStatus) (dueDate : Option Int)
    (enableNotification isRegistered : Bool)
    (notificationMinutesBefore : Int) (freshId : String) : SubmitResult :=
  if trim title = "" ∨ categoryId = "" then .rejectedEmpty
  else
    let taskData : TaskData :=
      { title := trim title
        description := trim description
        category_id := categoryId
        status := status
        due_date := dueDate
        enable_notification := enableNotification
        notification_minutes_before :=
          if enableNotification then some notificationMinutesBefore else none }
    .saved taskData
      (reconcileNotificationsP3 now scheduled savedTaskId enableNotification
        isRegistered dueDate notificationMinutesBefore freshId)

/-- The `taskData` of the earliest TaskDialog variant (first part of
TaskDialog.tsx), which has no notification fields. -/
structure TaskDataBasic where
  title : String
  description : String
  category_id : String
  status : TaskStatus
  due_date : Option Int
deriving DecidableEq, Repr

/-- Embedding of `handleSubmit` of the earliest TaskDialog variant (TaskDialog.tsx
lines 70-97): early return on empty trimmed title or missing category,
otherwise save and dismiss (`none` = nothing saved, dialog kept open). -/
def handleSubmitBasic (title description categoryId : String)
    (status : TaskStatus) (dueDate : Option Int) : Option TaskDataBasic :=
  if trim title = "" ∨ categoryId = "" then none
  else some { title := trim title, description := trim description,
              category_id := categoryId, status := status, due_date := dueDate }

/-! ## Category operations (src/contexts/DataContext.tsx) -/

/-- The `is_default = true` lookup of `ensureDefaultCategory`
(`.eq('user_id', userId).eq('is_default', true).maybeSingle()`). -/
def hasDefaultCategory (db : List Category) (userId : String) : Bool :=
  db.any (fun c => c.user_id == userId && c.is_default)

/-- Number of default categories of a user. -/
def defaultCount (db : List Category) (userId : String) : Nat :=
  db.countP (fun c => c.user_id == userId && c.is_default)

/-- Embedding of `ensureDefaultCategory`: if the user already has a default category do
nothing, otherwise insert a default category named "General" with color
`#3b82f6`.  `newId`/`createdAt` stand for the row values generated by the
database. -/
def ensureDefaultCategory (db : List Category) (userId newId : String)
    (createdAt : Int) : List Category :=
  if hasDefaultCategory db userId then db
  else db ++ [⟨newId, "General", "#3b82f6", userId, createdAt, true⟩]

/-- Embedding of `addCategory`: insert a category with `is_default: false`. -/
def addCategory (db : List Category) (userId newId name color : String)
    (createdAt : Int) : List Category :=
  db ++ [⟨newId, name, color, userId, createdAt, false⟩]

/-- A `Partial<Category>` update as passed by the category manager
(`name`, `color`), possibly carrying an `is_default` field;
`none` = field absent. -/
structure CategoryUpdates where
  name : Option String
  color : Option String
  is_default : Option Bool
deriving DecidableEq, Repr

/-- Application of `safeUpdates` to a row: `updateCategory` destructures
`const { is_default, ...safeUpdates } = updates`, so `is_default` is never
written. -/
def applyCategoryUpdates (u : CategoryUpdates) (c : Category) : Category :=
  { c with name := u.name.getD c.name, color := u.color.getD c.color }

/-- Embedding of `updateCategory`: update the row with the given id with the updates
minus `is_default`. -/
def updateCategory (db : List Category) (id : String)
    (u : CategoryUpdates) : List Category :=
  db.map (fun c => if c.id == id then applyCategoryUpdates u c else c)

/-- A task row as far as `deleteCategory` is concerned. -/
structure TaskRow where
  id : String
  category_id : String
deriving DecidableEq, Repr

/-- Embedding of `deleteCategory`: error if the id is unknown or names the default
category or no default category exists; otherwise move every task of the
deleted category to the default category, then delete the category. -/
def deleteCategory (tasks : List TaskRow) (categories : List Category)
    (id : String) : Except String (List TaskRow × List Category) :=
  match categories.find? (fun c => c.id == id) with
  | none => .error "Category not found"
  | some category =>
    if category.is_default then .error "Cannot delete default category"
    else
      match categories.find? (fun c => c.is_default) with
      | none => .error "Default category not found"
      | some defaultCategory =>
        let tasks' := tasks.map (fun t =>
          if t.category_id == id then { t with category_id := defaultCategory.id }
          else t)
        let categories' := categories.filter (fun c => c.id != id)
        .ok (tasks', categories')

/-! ## Mutation effect traces (src/contexts/DataContext.tsx)

Each mutation of `DataContext` is a sequence of awaited remote calls; the
traces below record, in order, the database writes and wholesale reloads
(`refreshData` / `loadData`) performed on the success path.  None of the
mutations calls `setTasks`/`setCategories` directly (`localStateWrite`). -/

inductive Effect where
  | dbInsert (table : String)
  | dbUpdate (table : String)
  | dbDelete (table : String)
  | refresh
  | localStateWrite
deriving DecidableEq, Repr

/-- Embedding of `addTask`: insert into `tasks`, then `await refreshData()`. -/
def addTaskEffects : List Effect := [.dbInsert "tasks", .refresh]

/-- Embedding of `updateTask`: update `tasks`, then `await refreshData()`. -/
def updateTaskEffects : List Effect := [.dbUpdate "tasks", .refresh]

/-- Embedding of `deleteTask`: delete from `tasks`, then `await refreshData()`. -/
def deleteTaskEffects : List Effect := [.dbDelete "tasks", .refresh]

/-- Embedding of `addCategory`: insert into `categories`, then `await refreshData()`. -/
def addCategoryEffects : List Effect := [.dbInsert "categories", .refresh]

/-- Embedding of `updateCategory`: update `categories`, then `await refreshData()`. -/
def updateCategoryEffects : List Effect := [.dbUpdate "categories", .refresh]

/-- Embedding of `deleteCategory` with `n` tasks to move: one `tasks` update per moved
task, delete from `categories`, then `await refreshData()`. -/
def deleteCategoryEffects (n : Nat) : List Effect :=
  List.replicate n (.dbUpdate "tasks") ++ [.dbDelete "categories", .refresh]

/-- The realtime `postgres_changes` handler on the `tasks` channel: its
body is exactly `loadData()`, a wholesale reload. -/
def realtimeTasksHandlerEffects : List Effect := [.refresh]

/-- The realtime `postgres_changes` handler on the `categories` channel:
its body is exactly `loadData()`, a wholesale reload. -/
def realtimeCategoriesHandlerEffects : List Effect := [.refresh]

/-! ## Completion analytics (src/screens/ReportsScreen.tsx) -/

/-- Embedding of `stats.total`. -/
def statsTotal (tasks : List Task) : Nat := tasks.length

/-- Embedding of `stats.completed`: tasks with status `'completed'`. -/
def statsCompleted (tasks : List Task) : Nat :=
  (tasks.filter (fun t => t.status == TaskStatus.completed)).length

/-- Embedding of `stats.active`: tasks with status `'upcoming'` or `'overdue'`. -/
def statsActive (tasks : List Task) : Nat :=
  (tasks.filter (fun t =>
    t.status == TaskStatus.upcoming || t.status == TaskStatus.overdue)).length

/-- Embedding of `completionRate`: `Math.round((completed / total) * 100)` guarded by
`total > 0`, else `0`.  `Math.round` is `round` on `ℚ` (half away from
zero toward `+∞`, as in JavaScript). -/
def completionRate (tasks : List Task) : Int :=
  if 0 < statsTotal tasks then
    round (((statsCompleted tasks : ℚ) / (statsTotal tasks : ℚ)) * 100)
  else 0

end TodoApp

namespace TodoApp

/-- C1: `scheduleTaskNotification` computes the trigger time as exactly
`dueDate - minutesBefore * 60000` milliseconds; when that time is `≤ now`
it schedules nothing and returns `null`, and any trigger it does schedule
is strictly in the future. -/
theorem C1_schedule_trigger (now dueDate minutesBefore : Int) :
    scheduleTaskNotification now dueDate minutesBefore =
      (if dueDate - minutesBefore * 60000 ≤ now then none
       else some (dueDate - minutesBefore * 60000)) ∧
    ∀ t, scheduleTaskNotification now dueDate minutesBefore = some t → now < t := by
  constructor
  · rfl
  · intro t ht
    unfold scheduleTaskNotification at ht
    by_cases h : dueDate - minutesBefore * 60000 ≤ now
    · simp [h] at ht
    · simp [h] at ht
      omega

/-- Witness for C1 at a concrete input. -/
theorem C1_schedule_trigger_witness :
    scheduleTaskNotification 0 100000 1 = some 40000 ∧ (0 : Int) < 40000 :=
  ⟨by decide, (C1_schedule_trigger 0 100000 1).2 40000 (by decide)⟩

/-- Mapping `NotifOption.value` over a value-filtered option list equals
filtering the mapped values. -/
theorem map_value_filter (l : List NotifOption) (m : Int) :
    (l.filter (fun opt => opt.value < m)).map NotifOption.value
      = (l.map NotifOption.value).filter (fun v => decide (v < m)) := by
  induction l with
  | nil => rfl
  | cons a t ih => by_cases h : a.value < m <;> simp [List.filter, h, ih]

/-- The six standard options are strictly ascending in value. -/
theorem allOptions_ascending :
    allOptions.Pairwise (fun a b => a.value < b.value) := by
  decide

/-- Unfolding of `validNotificationOptions` at a present due date. -/
theorem validNotificationOptions_some (m : Int) :
    validNotificationOptions (some m) =
      if m ≤ 0 then allOptions
      else if (allOptions.filter (fun opt => opt.value < m)).isEmpty
        then [⟨"1 min", 1⟩]
        else allOptions.filter (fun opt => opt.value < m) := rfl

/-- Unfolding of `isNotificationValid` at a present due date. -/
theorem isNotificationValid_some (m nmb : Int) :
    isNotificationValid (some m) nmb =
      if m = 0 then false else decide (nmb < m) := rfl

/-- Unfolding of `adjustNotificationMinutes` at a present due date. -/
theorem adjustNotificationMinutes_some (m nmb : Int) :
    adjustNotificationMinutes (some m) nmb =
      if 0 < m then
        if m ≤ nmb then
          match (validNotificationOptions (some m)).getLast? with
          | some maxValid => maxValid.value
          | none => nmb
        else nmb
      else nmb := rfl

/-- C2: for a due date strictly in the future, the offered lead-time options
are exactly the standard values `[5, 15, 30, 60, 120, 1440]` strictly below
`minutesUntilDue`, in the same ascending order; if none qualifies, the single
1-minute option is offered; with no due date or `minutesUntilDue ≤ 0` all six
standard options are offered. -/
theorem C2_valid_options (m : Int) :
    (0 < m → (∃ opt ∈ allOptions, opt.value < m) →
      (validNotificationOptions (some m)).map NotifOption.value
        = ([5, 15, 30, 60, 120, 1440] : List Int).filter (fun v => decide (v < m))) ∧
    (0 < m → (∀ opt ∈ allOptions, ¬ opt.value < m) →
      (validNotificationOptions (some m)).map NotifOption.value = [1]) ∧
    (m ≤ 0 → validNotificationOptions (some m) = allOptions) ∧
    validNotificationOptions none = allOptions ∧
    (validNotificationOptions (some m)).Pairwise (fun a b => a.value < b.value) := by
  have hmap : allOptions.map NotifOption.value = [5, 15, 30, 60, 120, 1440] := by
    decide
  refine ⟨?_, ?_, ?_, rfl, ?_⟩
  · intro hm hex
    obtain ⟨opt, hmem, hlt⟩ := hex
    have hne : allOptions.filter (fun opt => opt.value < m) ≠ [] :=
      List.ne_nil_of_mem (List.mem_filter.mpr ⟨hmem, by simpa using hlt⟩)
    rw [validNotificationOptions_some,
      if_neg (by omega : ¬ m ≤ 0),
      if_neg (by simpa [List.isEmpty_iff] using hne)]
    rw [map_value_filter, hmap]
  · intro hm hall
    have hnil : allOptions.filter (fun opt => opt.value < m) = [] := by
      rw [List.filter_eq_nil_iff]
      intro a ha
      simpa using hall a ha
    rw [validNotificationOptions_some,
      if_neg (by omega : ¬ m ≤ 0), if_pos (by simp [hnil])]
    rfl
  · intro hm
    rw [validNotificationOptions_some, if_pos hm]
  · rw [validNotificationOptions_some]
    by_cases hm : m ≤ 0
    · rw [if_pos hm]; exact allOptions_ascending
    · rw [if_neg hm]
      by_cases hemp : (allOptions.filter (fun opt => opt.value < m)).isEmpty
      · rw [if_pos hemp]; simp
      · rw [if_neg hemp]
        exact List.Pairwise.sublist (List.filter_sublist allOptions) allOptions_ascending

/-- Witness for C2 at `minutesUntilDue = 100`. -/
theorem C2_valid_options_witness :
    (validNotificationOptions (some 100)).map NotifOption.value
      = ([5, 15, 30, 60, 120, 1440] : List Int).filter (fun v => decide (v < 100)) :=
  (C2_valid_options 100).1 (by decide) (by decide)

/-- C4: with a future due date and at least one standard option strictly below
`minutesUntilDue`, a selected lead time `< minutesUntilDue` is kept, a
selected lead time `≥ minutesUntilDue` is replaced by the value of the last
(largest) entry of the valid-options list, and in either case the adjusted
lead time satisfies `isNotificationValid`. -/
theorem C4_auto_adjust (m nmb : Int) (hm : 0 < m)
    (hex : ∃ opt ∈ allOptions, opt.value < m) :
    (nmb < m → adjustNotificationMinutes (some m) nmb = nmb) ∧
    (m ≤ nmb → ∃ opt, (validNotificationOptions (some m)).getLast? = some opt ∧
        adjustNotificationMinutes (some m) nmb = opt.value) ∧
    isNotificationValid (some m) (adjustNotificationMinutes (some m) nmb) = true := by
  obtain ⟨opt₀, hmem₀, hlt₀⟩ := hex
  have hne : allOptions.filter (fun opt => opt.value < m) ≠ [] :=
    List.ne_nil_of_mem (List.mem_filter.mpr ⟨hmem₀, by simpa using hlt₀⟩)
  have hvo : validNotificationOptions (some m)
      = allOptions.filter (fun opt => opt.value < m) := by
    rw [validNotificationOptions_some,
      if_neg (by omega : ¬ m ≤ 0),
      if_neg (by simpa [List.isEmpty_iff] using hne)]
  have hvne : validNotificationOptions (some m) ≠ [] := by rw [hvo]; exact hne
  obtain ⟨last, hlast⟩ : ∃ a, (validNotificationOptions (some m)).getLast? = some a := by
    rw [← Option.isSome_iff_exists, List.getLast?_isSome]
    exact hvne
  have hlast_mem : last ∈ validNotificationOptions (some m) :=
    List.mem_of_getLast?_eq_some hlast
  have hlast_lt : last.value < m := by
    rw [hvo] at hlast_mem
    simpa using (List.mem_filter.mp hlast_mem).2
  have hadj : m ≤ nmb → adjustNotificationMinutes (some m) nmb = last.value := by
    intro hge
    rw [adjustNotificationMinutes_some, if_pos hm, if_pos hge, hlast]
  refine ⟨?_, ?_, ?_⟩
  · intro hlt
    rw [adjustNotificationMinutes_some, if_pos hm, if_neg (by omega : ¬ m ≤ nmb)]
  · intro hge
    exact ⟨last, hlast, hadj hge⟩
  · by_cases hge : m ≤ nmb
    · rw [hadj hge, isNotificationValid_some, if_neg (by omega : ¬ m = 0)]
      simpa using hlast_lt
    · have hid : adjustNotificationMinutes (some m) nmb = nmb := by
        rw [adjustNotificationMinutes_some, if_pos hm, if_neg hge]
      rw [hid, isNotificationValid_some, if_neg (by omega : ¬ m = 0)]
      simp only [decide_eq_true_eq]
      omega

/-- Witness for C4 at `minutesUntilDue = 100`, selected lead time 1440. -/
theorem C4_auto_adjust_witness :
    isNotificationValid (some 100) (adjustNotificationMinutes (some 100) 1440) = true :=
  (C4_auto_adjust 100 1440 (by decide) (by decide)).2.2

/-- C9: submitting with an empty (or whitespace-only) title or with no
selected category performs no mutation at all: `handleSubmit` returns
immediately, in the final variant and in the earliest variant alike. -/
theorem C9_empty_submit_noop (now : Int) (scheduled : List ScheduledNotification)
    (title description categoryId savedTaskId : String) (status : TaskStatus)
    (dueDate : Option Int) (enableNotification isRegistered : Bool)
    (notificationMinutesBefore : Int) (freshId : String)
    (h : trim title = "" ∨ categoryId = "") :
    handleSubmit now scheduled title description categoryId savedTaskId status
        dueDate enableNotification isRegistered notificationMinutesBefore freshId
      = SubmitResult.rejectedEmpty ∧
    handleSubmitBasic title description categoryId status dueDate = none := by
  constructor
  · unfold handleSubmit
    rw [if_pos h]
  · unfold handleSubmitBasic
    rw [if_pos h]

/-- Witness for C9: whitespace-only title. -/
theorem C9_empty_submit_noop_witness :
    handleSubmit 0 [] "   " "d" "c1" "t1" TaskStatus.upcoming none true true 60 "f"
      = SubmitResult.rejectedEmpty ∧
    handleSubmitBasic "   " "d" "c1" TaskStatus.upcoming none = none :=
  C9_empty_submit_noop 0 [] "   " "d" "c1" "t1" TaskStatus.upcoming none true true
    60 "f" (Or.inl (by decide))

/-- C10: a submission whose due date is already past
(`minutesUntilDue ≤ 0`) saves `enable_notification = false` and
`notification_minutes_before = null` regardless of the toggle and selected
lead time, and schedules no reminder (the scheduled list is unchanged). -/
theorem C10_overdue_submit (now d : Int) (scheduled : List ScheduledNotification)
    (title description categoryId savedTaskId : String) (status : TaskStatus)
    (enableNotification isRegistered : Bool) (notificationMinutesBefore : Int)
    (freshId : String)
    (htitle : trim title ≠ "") (hcat : categoryId ≠ "")
    (hpast : differenceInMinutes d now ≤ 0) :
    handleSubmit now scheduled title description categoryId savedTaskId status
        (some d) enableNotification isRegistered notificationMinutesBefore freshId
      = SubmitResult.saved
          ⟨trim title, trim description, categoryId, status, some d, false, none⟩
          scheduled := by
  have hover : decide (differenceInMinutes d now ≤ 0) = true := decide_eq_true hpast
  unfold handleSubmit scheduleOnSubmit
  rw [if_neg (by tauto : ¬ (trim title = "" ∨ categoryId = ""))]
  simp only [Option.map_some', hover]
  rw [if_neg (by simp : ¬ (enableNotification = true ∧ some d ≠ none ∧ true = false ∧
    isNotificationValid (some (differenceInMinutes d now)) notificationMinutesBefore
      = false))]
  rw [if_neg (by omega : ¬ (enableNotification = true ∧ isRegistered = true ∧
    savedTaskId ≠ "" ∧ isNotificationValid (some (differenceInMinutes d now))
      notificationMinutesBefore = true ∧ 0 < differenceInMinutes d now))]
  simp

/-- Witness for C10 at a concrete overdue submission. -/
theorem C10_overdue_submit_witness :
    handleSubmit 1000000 [] "Task" "" "c1" "t1" TaskStatus.upcoming (some 0) true true
        60 "f"
      = SubmitResult.saved
          ⟨"Task", "", "c1", TaskStatus.upcoming, some 0, false, none⟩ [] :=
  C10_overdue_submit 1000000 0 [] "Task" "" "c1" "t1" TaskStatus.upcoming true true
    60 "f" (by decide) (by decide) (by decide)

/-- C6: every successful mutation trace ends with a wholesale reload
(`refreshData`), none writes local state directly, and each realtime
change handler is exactly a wholesale reload. -/
theorem C6_mutations_reload (n : Nat) :
    addTaskEffects.getLast? = some .refresh ∧
    Effect.localStateWrite ∉ addTaskEffects ∧
    updateTaskEffects.getLast? = some .refresh ∧
    Effect.localStateWrite ∉ updateTaskEffects ∧
    deleteTaskEffects.getLast? = some .refresh ∧
    Effect.localStateWrite ∉ deleteTaskEffects ∧
    addCategoryEffects.getLast? = some .refresh ∧
    Effect.localStateWrite ∉ addCategoryEffects ∧
    updateCategoryEffects.getLast? = some .refresh ∧
    Effect.localStateWrite ∉ updateCategoryEffects ∧
    (deleteCategoryEffects n).getLast? = some .refresh ∧
    Effect.localStateWrite ∉ deleteCategoryEffects n ∧
    realtimeTasksHandlerEffects = [.refresh] ∧
    realtimeCategoriesHandlerEffects = [.refresh] := by
  refine ⟨by decide, by decide, by decide, by decide, by decide, by decide,
    by decide, by decide, by decide, by decide, ?_, ?_, rfl, rfl⟩
  · unfold deleteCategoryEffects
    rw [List.getLast?_append]
    rfl
  · unfold deleteCategoryEffects
    simp [List.mem_replicate]

/-- C5: `ensureDefaultCategory` inserts a default category named
"General" only when the user has none (raising the user's default count to
one, never past it), `addCategory` never changes any default count, and
`updateCategory` never changes any default count (it strips
`is_default`). -/
theorem C5_single_default (db : List Category) (userId newId name color : String)
    (createdAt : Int) (id : String) (u : CategoryUpdates) :
    defaultCount (ensureDefaultCategory db userId newId createdAt) userId
      = max 1 (defaultCount db userId) ∧
    (hasDefaultCategory db userId = true →
      ensureDefaultCategory db userId newId createdAt = db) ∧
    (hasDefaultCategory db userId = false →
      ensureDefaultCategory db userId newId createdAt
        = db ++ [⟨newId, "General", "#3b82f6", userId, createdAt, true⟩]) ∧
    defaultCount (addCategory db userId newId name color createdAt) userId
      = defaultCount db userId ∧
    (∀ uId, defaultCount (updateCategory db id u) uId = defaultCount db uId) := by
  have hcount : ∀ (l : List Category) (x : Category),
      defaultCount (l ++ [x]) userId
        = defaultCount l userId + (if x.user_id == userId && x.is_default then 1 else 0) := by
    intro l x
    unfold defaultCount
    rw [List.countP_append]
    congr 1
    cases h : (x.user_id == userId && x.is_default) <;>
      simp [List.countP, List.countP.go, h]
  refine ⟨?_, ?_, ?_, ?_, ?_⟩
  · unfold ensureDefaultCategory
    by_cases hd : hasDefaultCategory db userId
    · rw [if_pos hd]
      have hpos : 0 < defaultCount db userId := by
        unfold hasDefaultCategory at hd
        unfold defaultCount
        rw [List.countP_pos_iff]
        obtain ⟨c, hc, hp⟩ := List.any_eq_true.mp hd
        exact ⟨c, hc, hp⟩
      omega
    · rw [if_neg hd]
      have hz : defaultCount db userId = 0 := by
        unfold hasDefaultCategory at hd
        unfold defaultCount
        rw [List.countP_eq_zero]
        intro c hc
        intro hp
        exact hd (List.any_eq_true.mpr ⟨c, hc, hp⟩)
      rw [hcount, hz]
      simp
  · intro hd
    unfold ensureDefaultCategory
    rw [if_pos hd]
  · intro hd
    unfold ensureDefaultCategory
    rw [if_neg (by simp [hd])]
  · unfold addCategory
    rw [hcount]
    simp
  · intro uId
    unfold updateCategory defaultCount
    rw [List.countP_map]
    apply List.countP_congr
    intro c _
    by_cases hc : c.id == id <;> simp [hc, applyCategoryUpdates, Function.comp]

/-- Witness for C5's implications at a concrete database. -/
theorem C5_single_default_witness :
    ensureDefaultCategory [⟨"c1", "General", "#3b82f6", "u1", 0, true⟩] "u1" "c2" 5
      = [⟨"c1", "General", "#3b82f6", "u1", 0, true⟩] :=
  (C5_single_default [⟨"c1", "General", "#3b82f6", "u1", 0, true⟩] "u1" "c2" "x" "y"
    5 "z" ⟨none, none, none⟩).2.1 (by decide)

/-- C7: `completed` counts exactly the tasks with status `'completed'`,
`active` exactly those with status `'upcoming'` or `'overdue'`, and
`completionRate` is `round(100 * completed / total)` for a nonempty task
list and `0` for an empty one. -/
theorem C7_completion_stats (tasks : List Task) :
    statsCompleted tasks
      = tasks.countP (fun t => t.status == TaskStatus.completed) ∧
    statsActive tasks
      = tasks.countP (fun t =>
          t.status == TaskStatus.upcoming || t.status == TaskStatus.overdue) ∧
    (tasks ≠ [] →
      completionRate tasks
        = round ((100 * (statsCompleted tasks : ℚ)) / (statsTotal tasks : ℚ))) ∧
    (tasks = [] → completionRate tasks = 0) := by
  refine ⟨(List.countP_eq_length_filter _ _).symm,
    (List.countP_eq_length_filter _ _).symm, ?_, ?_⟩
  · intro hne
    have hpos : 0 < statsTotal tasks := by
      unfold statsTotal
      exact List.length_pos.mpr hne
    unfold completionRate
    rw [if_pos hpos]
    congr 1
    ring
  · intro he
    subst he
    rfl

/-- A sample task list: one completed task out of two. -/
def sampleTasks : List Task :=
  [⟨"t1", "a", none, TaskStatus.completed, "c1", "u1", none, 0, 0, 0, none, none⟩,
   ⟨"t2", "b", none, TaskStatus.upcoming, "c1", "u1", none, 0, 0, 1, none, none⟩]

/-- Witness for C7 on `sampleTasks`. -/
theorem C7_completion_stats_witness :
    completionRate sampleTasks
      = round ((100 * (statsCompleted sampleTasks : ℚ)) / (statsTotal sampleTasks : ℚ)) :=
  (C7_completion_stats sampleTasks).2.2.1 (by simp [sampleTasks])

/-- C8: `deleteCategory` reports 'Category not found' for an unknown id and
'Cannot delete default category' for the default category; on success (ids
being unique) there is a default category to which every task of the
deleted category is moved before the category is deleted, so no task is
left referencing the deleted id. -/
theorem C8_delete_category (tasks : List TaskRow) (categories : List Category)
    (id : String) (hnodup : (categories.map Category.id).Nodup) :
    (categories.find? (fun c => c.id == id) = none →
      deleteCategory tasks categories id = .error "Category not found") ∧
    (∀ c, categories.find? (fun c => c.id == id) = some c → c.is_default = true →
      deleteCategory tasks categories id = .error "Cannot delete default category") ∧
    (∀ tasks' categories',
      deleteCategory tasks categories id = .ok (tasks', categories') →
      ∃ dc, dc ∈ categories ∧ dc.is_default = true ∧ dc.id ≠ id ∧
        tasks' = tasks.map (fun t =>
          if t.category_id == id then { t with category_id := dc.id } else t) ∧
        categories' = categories.filter (fun c => c.id != id) ∧
        ∀ t ∈ tasks', t.category_id ≠ id) := by
  refine ⟨?_, ?_, ?_⟩
  · intro hnone
    unfold deleteCategory
    rw [hnone]
  · intro c hfind hdef
    unfold deleteCategory
    rw [hfind]
    simp [hdef]
  · intro tasks' categories' hok
    unfold deleteCategory at hok
    split at hok
    · cases hok
    · rename_i category hfind
      split at hok
      · cases hok
      · rename_i hdef
        split at hok
        · cases hok
        · rename_i dc hdft
          simp only [Except.ok.injEq, Prod.mk.injEq] at hok
          obtain ⟨htasks, hcats⟩ := hok
          have hdc_mem : dc ∈ categories := List.mem_of_find?_eq_some hdft
          have hdc_def : dc.is_default = true := by
            simpa using List.find?_some hdft
          have hcat_mem : category ∈ categories := List.mem_of_find?_eq_some hfind
          have hcat_id : category.id = id := by
            simpa using List.find?_some hfind
          have hdc_ne : dc.id ≠ id := by
            intro hdc_id
            have hsame : dc = category :=
              List.inj_on_of_nodup_map hnodup hdc_mem hcat_mem
                (by rw [hdc_id, hcat_id])
            exact hdef (hsame ▸ hdc_def)
          refine ⟨dc, hdc_mem, hdc_def, hdc_ne, htasks.symm, hcats.symm, ?_⟩
          intro t ht
          rw [← htasks] at ht
          obtain ⟨t₀, _, hmap⟩ := List.mem_map.mp ht
          by_cases hmove : t₀.category_id == id
          · rw [if_pos hmove] at hmap
            rw [← hmap]
            exact hdc_ne
          · rw [if_neg hmove] at hmap
            rw [← hmap]
            simpa using hmove

/-- A sample category table with unique ids. -/
def sampleCategories : List Category :=
  [⟨"c1", "General", "#3b82f6", "u1", 0, true⟩,
   ⟨"c2", "Work", "#ef4444", "u1", 1, false⟩]

/-- Witness for C8: unknown id at a concrete table. -/
theorem C8_delete_category_witness :
    deleteCategory ([] : List TaskRow) sampleCategories "nope"
      = .error "Category not found" :=
  (C8_delete_category [] sampleCategories "nope" (by decide)).1 (by decide)

/-- C3 as stated is false for the final TaskDialog variant: its
`handleSubmit` cancels nothing, so a previously scheduled reminder for the
saved task survives alongside the newly scheduled one — two reminders for
task `"t1"` after a save with the device registered. -/
theorem C3_counterexample :
    handleSubmit 0 [⟨"old", "t1", 50000⟩] "Task" "" "c1" "t1"
        TaskStatus.upcoming (some 7200000) true true 60 "new"
      = SubmitResult.saved
          ⟨"Task", "", "c1", TaskStatus.upcoming, some 7200000, true, some 60⟩
          [⟨"old", "t1", 50000⟩, ⟨"new", "t1", 3600000⟩] ∧
    ([⟨"old", "t1", 50000⟩, ⟨"new", "t1", 3600000⟩] :
        List ScheduledNotification).countP (fun n => n.taskId == "t1") = 2 := by
  constructor
  · decide
  · decide

/-- C3 amended: in the part_003 TaskDialog variant, when the device is
registered and the saved task has an id, every previously scheduled
reminder whose `data.taskId` equals the saved task's id is canceled before
at most one new reminder is scheduled, so after saving at most one
scheduled reminder exists for that task and none of the old ones
survives. -/
theorem C3_p3_reconciles (now : Int) (scheduled : List ScheduledNotification)
    (title description categoryId savedTaskId : String) (status : TaskStatus)
    (dueDate : Option Int) (enableNotification : Bool)
    (notificationMinutesBefore : Int) (freshId : String)
    (hid : savedTaskId ≠ "")
    (hfresh : ∀ n ∈ scheduled, n.identifier ≠ freshId) :
    ∀ td sch,
      handleSubmitP3 now scheduled title description categoryId savedTaskId status
          dueDate enableNotification true notificationMinutesBefore freshId
        = SubmitResult.saved td sch →
      sch.countP (fun n => n.taskId == savedTaskId) ≤ 1 ∧
      ∀ n ∈ scheduled, n.taskId = savedTaskId → n ∉ sch := by
  intro td sch hsub
  unfold handleSubmitP3 at hsub
  by_cases hguard : trim title = "" ∨ categoryId = ""
  · rw [if_pos hguard] at hsub
    cases hsub
  · rw [if_neg hguard] at hsub
    simp only [SubmitResult.saved.injEq] at hsub
    obtain ⟨-, hsch⟩ := hsub
    subst hsch
    have hcancel0 :
        (scheduled.filter (fun n => n.taskId != savedTaskId)).countP
          (fun n => n.taskId == savedTaskId) = 0 := by
      rw [List.countP_eq_zero]
      intro a ha
      have hne := (List.mem_filter.mp ha).2
      simpa using hne
    have hcancel_not :
        ∀ n ∈ scheduled, n.taskId = savedTaskId →
          n ∉ scheduled.filter (fun n => n.taskId != savedTaskId) := by
      intro n _ hts hmem
      have hne := (List.mem_filter.mp hmem).2
      simp [hts] at hne
    have hchar :
        reconcileNotificationsP3 now scheduled savedTaskId enableNotification true
            dueDate notificationMinutesBefore freshId
          = scheduled.filter (fun n => n.taskId != savedTaskId) ∨
        ∃ trig,
          reconcileNotificationsP3 now scheduled savedTaskId enableNotification true
              dueDate notificationMinutesBefore freshId
            = scheduled.filter (fun n => n.taskId != savedTaskId)
                ++ [⟨freshId, savedTaskId, trig⟩] := by
      unfold reconcileNotificationsP3
      rw [if_pos ⟨hid, rfl⟩]
      by_cases hen : enableNotification = true
      · rw [if_pos hen]
        cases dueDate with
        | none => exact Or.inl rfl
        | some d =>
          dsimp only
          cases hs : scheduleTaskNotification now d notificationMinutesBefore with
          | none => exact Or.inl rfl
          | some trig => exact Or.inr ⟨trig, rfl⟩
      · rw [if_neg hen]
        exact Or.inl rfl
    rcases hchar with hc | ⟨trig, hc⟩
    · rw [hc]
      exact ⟨by rw [hcancel0]; exact Nat.zero_le 1, hcancel_not⟩
    · rw [hc]
      constructor
      · rw [List.countP_append, hcancel0]
        simp [List.countP, List.countP.go]
      · intro n hn hts hmem
        rcases List.mem_append.mp hmem with hm | hm
        · exact hcancel_not n hn hts hm
        · have hnn : n = ⟨freshId, savedTaskId, trig⟩ := by simpa using hm
          exact hfresh n hn (by rw [hnn])

/-- Witness for the amended C3 at a concrete edit of task `"t1"`. -/
theorem C3_p3_reconciles_witness :
    ([⟨"new", "t1", 3600000⟩] :
        List ScheduledNotification).countP (fun n => n.taskId == "t1") ≤ 1 ∧
    ∀ n : ScheduledNotification,
      n ∈ ([⟨"old", "t1", 50000⟩] : List ScheduledNotification) →
      n.taskId = "t1" → n ∉ ([⟨"new", "t1", 3600000⟩] :
        List ScheduledNotification) :=
  C3_p3_reconciles 0 [⟨"old", "t1", 50000⟩] "Task" "" "c1" "t1"
    TaskStatus.upcoming (some 7200000) true 60 "new" (by decide) (by decide)
    ⟨"Task", "", "c1", TaskStatus.upcoming, some 7200000, true, some 60⟩
    [⟨"new", "t1", 3600000⟩] (by decide)

end TodoApp
